import Mathlib

/-!
Verification of the AppInstaller deployment engine (Rust sources
src/zip_utils.rs, src/main.rs, src/install_utils.rs) against its
natural-language specification.

The development shallowly embeds the program:

* bytes are modelled as natural numbers, byte buffers as List Nat;
* the hand-rolled ZIP central-directory parser and the per-entry
  extractor are translated function-by-function from the Rust source;
* the filesystem effects of extraction are made explicit as a small
  state record (created directories, written files);
* the deployment engine (run_installation and its helpers) is modelled
  as a function from an environment of external observations (directory
  listings, running processes, metadata) to the list of filesystem
  actions the Rust code performs, in program order.

All definitions are executable; theorems at concrete inputs reduce by
decide or rfl.
-/

namespace AppInstaller

/-! ### Byte-buffer primitives

zip_utils.rs and main.rs read fixed-width little-endian fields with
expressions of the form u16::from_le_bytes(buffer[a..b].try_into().unwrap()).
The model reads the same half-open span [a, b) with sliceBytes and folds
it little-endian with leVal. -/

/-- The half-open byte span buffer[a..b], as sliced by the Rust range
indexing operations in parse_central_directory and extract_file. -/
def sliceBytes (buffer : List Nat) (a b : Nat) : List Nat :=
  (buffer.drop a).take (b - a)

/-- Little-endian value of a byte list (first byte least significant),
as computed by u16::from_le_bytes / u32::from_le_bytes. -/
def leVal (bs : List Nat) : Nat :=
  bs.foldr (fun b acc => b + 256 * acc) 0

/-- u16::from_le_bytes(buffer[off..off+2].try_into().unwrap()). -/
def readU16 (buffer : List Nat) (off : Nat) : Nat :=
  leVal (sliceBytes buffer off (off + 2))

/-- u32::from_le_bytes(buffer[off..off+4].try_into().unwrap()). -/
def readU32 (buffer : List Nat) (off : Nat) : Nat :=
  leVal (sliceBytes buffer off (off + 4))

/-- The central-directory file header signature PK\x01\x02
(zip_utils.rs line 19, constant DEFLATE_SIGNATURE). -/
def cdSig : List Nat := [0x50, 0x4b, 0x01, 0x02]

/-- The local file header signature PK\x03\x04 (main.rs line 104 uses
this constant as its scan signature; both extract_file copies check it
at the local header offset). -/
def localSig : List Nat := [0x50, 0x4b, 0x03, 0x04]

/-! ### ZIP entry record and parse errors -/

/-- One parsed central-directory record (struct ZipEntry in
zip_utils.rs lines 9-14 and main.rs lines 43-49).  File-name bytes are
kept as raw bytes; the Rust code decodes them with
String::from_utf8_lossy, which is injective on the byte level for the
purposes of this development (only emptiness and a trailing 0x2F byte,
the character '/', are ever inspected). -/
structure ZipEntry where
  file_name : List Nat
  compressed_size : Nat
  compression_method : Nat
  local_header_offset : Nat
  deriving DecidableEq, Repr

/-- The two io::Error values produced by parse_central_directory
(both copies): ErrorKind::UnexpectedEof with the two distinct
messages. -/
inductive ParseErr where
  | incompleteHeader
  | incompleteTrailer
  deriving DecidableEq, Repr

/-- The scanning loop of parse_central_directory, generic in the
4-byte signature scanned for (zip_utils.rs lines 21-75 and main.rs
lines 106-143 are this code verbatim; they differ only in the value of
the constant named DEFLATE_SIGNATURE).  i is the scan index; the Rust
while loop with a mutable entries vector is written as recursion that
conses each found entry onto the entries of the rest.  The loop
terminates because the index strictly increases on every iteration;
the recursion is structural on the fuel argument, which together with
its invariant (strictly more fuel than bytes left to scan) witnesses
that termination: the zero-fuel case is unreachable. -/
def parseGoAux (sig buffer : List Nat) :
    (fuel : Nat) → (i : Nat) → buffer.length - i < fuel →
      Except ParseErr (List ZipEntry)
  | 0, _, h => absurd h (by omega)
  | fuel + 1, i, h =>
    if h4 : i + 4 ≤ buffer.length then
      if sliceBytes buffer i (i + 4) = sig then
        if i + 46 > buffer.length then
          .error .incompleteHeader
        else
          if htr : i + 46 + (readU16 buffer (i + 28) +
              readU16 buffer (i + 30) + readU16 buffer (i + 32)) >
              buffer.length then
            .error .incompleteTrailer
          else
            match parseGoAux sig buffer fuel
                (i + 46 + (readU16 buffer (i + 28) + readU16 buffer (i + 30) +
                  readU16 buffer (i + 32))) (by omega) with
            | .error e => .error e
            | .ok rest =>
                .ok ({ file_name :=
                         sliceBytes buffer (i + 46)
                           (i + 46 + readU16 buffer (i + 28)),
                       compressed_size := readU32 buffer (i + 20),
                       compression_method := readU16 buffer (i + 10),
                       local_header_offset := readU32 buffer (i + 42) } :: rest)
      else
        parseGoAux sig buffer fuel (i + 1) (by omega)
    else
      .ok []

/-- parse_central_directory from src/zip_utils.rs (lines 16-78): scans
for the central-directory signature PK\x01\x02. -/
def zip_parse_central_directory (buffer : List Nat) :
    Except ParseErr (List ZipEntry) :=
  parseGoAux cdSig buffer (buffer.length + 1) 0 (by omega)

/-- parse_central_directory from src/main.rs (lines 101-146): same
loop body, but its DEFLATE_SIGNATURE constant holds PK\x03\x04, so it
scans for the local-file-header signature. -/
def main_parse_central_directory (buffer : List Nat) :
    Except ParseErr (List ZipEntry) :=
  parseGoAux localSig buffer (buffer.length + 1) 0 (by omega)

/-! ### Filesystem model for extraction

extract_file touches the filesystem through fs::create_dir_all,
OpenOptions::new().write(true).create(true).truncate(true).open, and
writes to the opened file.  The model records these effects explicitly:
dirs collects the arguments of create_dir_all calls (each call creates
the named directory and all its parents), files maps a path to the
bytes currently in it (most recent binding first).  The model treats
the OS calls themselves as succeeding; the errors the claims are about
are the ones extract_file raises itself. -/

/-- Filesystem state visible to extract_file. -/
structure FSState where
  dirs : List (List Nat)
  files : List (List Nat × List Nat)
  deriving DecidableEq, Repr

/-- extract_to_dir.join(entry.file_name): the destination path of an
entry, modelled as the destination directory bytes, a separator, and
the name bytes. -/
def joinPath (dest name : List Nat) : List Nat :=
  dest ++ 0x2f :: name

/-- path.parent() of a joined path: everything before the last
separator byte. -/
def parentPath (p : List Nat) : List Nat :=
  (p.reverse.dropWhile (fun b => b ≠ 0x2f)).drop 1 |>.reverse

/-- fs::create_dir_all(p). -/
def createDirAll (st : FSState) (p : List Nat) : FSState :=
  { st with dirs := p :: st.dirs }

/-- Record path p as holding bytes c (a fresh binding shadows an older
one; lookups read the most recent binding). -/
def setFile (files : List (List Nat × List Nat)) (p c : List Nat) :
    List (List Nat × List Nat) :=
  (p, c) :: files

/-- OpenOptions::new().write(true).create(true).truncate(true).open(p):
the file now exists and is empty. -/
def openCreateTruncate (st : FSState) (p : List Nat) : FSState :=
  { st with files := setFile st.files p [] }

/-- Writing bytes c to the file opened at p (write_all for stored
entries, io::copy of the deflate decoder output for deflated ones). -/
def writeOut (st : FSState) (p c : List Nat) : FSState :=
  { st with files := setFile st.files p c }

/-- entry.file_name.ends_with('/') on the byte level: the lossy UTF-8
decoding of the name ends in '/' exactly when the last byte is 0x2f. -/
def endsWithSlash (name : List Nat) : Bool :=
  name.getLast? = some 0x2f

/-- The io::Error values extract_file can raise itself, plus the
propagated failure of the deflate decoder (io::copy). -/
inductive ExtractErr where
  | incompleteLocalHeader
  | invalidLocalSignature
  | dataExceedsBuffer
  | unsupportedCompression (method : Nat)
  | inflateFailed
  deriving DecidableEq, Repr

/-- extract_file from src/zip_utils.rs lines 80-160 (src/main.rs lines
148-210 are the same code).  The flate2 raw-deflate decoder is outside
the repository; it is passed in as the function inflate, which either
yields the decompressed bytes or fails (an abstraction of
DeflateDecoder + io::copy).  The returned pair is the filesystem state
after the call (effects performed before an error persist, as in Rust)
together with the call's result. -/
def extract_file (inflate : List Nat → Except Unit (List Nat))
    (entry : ZipEntry) (buffer : List Nat) (extract_to_dir : List Nat)
    (st : FSState) : FSState × Except ExtractErr Unit :=
  let offset := entry.local_header_offset
  if offset + 30 > buffer.length then
    (st, .error .incompleteLocalHeader)
  else if sliceBytes buffer offset (offset + 4) ≠ localSig then
    (st, .error .invalidLocalSignature)
  else
    let file_name_length := readU16 buffer (offset + 26)
    let extra_field_length := readU16 buffer (offset + 28)
    let data_start := offset + 30 + file_name_length + extra_field_length
    let data_end := data_start + entry.compressed_size
    if data_end > buffer.length then
      (st, .error .dataExceedsBuffer)
    else
      let file_data := sliceBytes buffer data_start data_end
      let path := joinPath extract_to_dir entry.file_name
      if endsWithSlash entry.file_name then
        (createDirAll st path, .ok ())
      else
        let st1 := createDirAll st (parentPath path)
        let st2 := openCreateTruncate st1 path
        if entry.compression_method = 0 then
          (writeOut st2 path file_data, .ok ())
        else if entry.compression_method = 8 then
          match inflate file_data with
          | .ok plain => (writeOut st2 path plain, .ok ())
          | .error _ => (st2, .error .inflateFailed)
        else
          (st2, .error (.unsupportedCompression entry.compression_method))

/-! ### Newest-zip selection

copy_latest_zip (install_utils.rs lines 271-289, main.rs lines
694-710) and the remote scan of the self-update check (main.rs lines
1009-1025, install_utils.rs lines 161-183) run the identical loop:
over the (successfully read) entries of a directory, keep the first
file with extension "zip" whose metadata and modification time are
readable and whose modification time is strictly greater than the
current best. -/

/-- One entry of a directory listing as the Rust loops observe it:
its path, whether path.is_file(), its extension, and its modification
time (none when fs::metadata or metadata.modified() fails, in which
case the loops skip the entry). -/
structure DirEntry where
  path : String
  isFile : Bool
  ext : Option String
  mtime : Option Nat
  deriving DecidableEq, Repr

/-- One iteration of the newest-file loop body, updating the
newest_file accumulator. -/
def newestStep (acc : Option (String × Nat)) (e : DirEntry) :
    Option (String × Nat) :=
  if e.isFile && e.ext == some "zip" then
    match e.mtime with
    | some m =>
        match acc with
        | none => some (e.path, m)
        | some (p, t) => if m > t then some (e.path, m) else some (p, t)
    | none => acc
  else
    acc

/-- The for loop with the mutable newest_file accumulator. -/
def newestGo (acc : Option (String × Nat)) : List DirEntry →
    Option (String × Nat)
  | [] => acc
  | e :: rest => newestGo (newestStep acc e) rest

/-- The newest-zip selection shared by copy_latest_zip and the
self-update remote scan: path and modification time of the selected
archive, if any. -/
def selectNewestZip (entries : List DirEntry) : Option (String × Nat) :=
  newestGo none entries

/-! ### Deployment engine model

run_installation (main.rs lines 608-658; install_utils.rs lines 60-111
is the same sequence with uninstall_application in place of
delete_directory and with the quit call commented out) and its helpers
update_installer / get_installer / copy_latest_zip / unzip_file /
delete_directory are modelled as functions from an environment of
external observations to the list of filesystem actions performed, in
program order. -/

/-- External observations the engine branches on.  Directory listings
and existence checks are functions of the application name; src/main.rs
reads the listing for application a from C:\dev\apps\a and the
self-update scan reads C:\dev\apps\AppInstaller, so both are
sourceFor applied to the respective name.  sourceFor a = none models
fs::read_dir failing for that directory. -/
structure Env where
  /-- get_local_appdata() returns Some path. -/
  localAppdata : Bool
  /-- local_appdata.join("AppInstaller").exists() (main.rs line 999). -/
  localInstallerDirExists : Bool
  /-- env::current_exe() is Ok. -/
  currentExeOk : Bool
  /-- fs::metadata(current_exe) and .modified() are Ok, with this time. -/
  currentExeMtime : Option Nat
  /-- fs::read_dir(C:\dev\apps\a), when it succeeds. -/
  sourceFor : String → Option (List DirEntry)
  /-- Executable names of the running processes (sysinfo). -/
  runningProcesses : List String
  /-- local_appdata.join(a).exists() (delete_directory, main.rs 814). -/
  appDirExists : String → Bool
  /-- The staged archive opens, reads and parses successfully
  (unzip_file reaches its extraction loop). -/
  stagedZipParses : Bool
  /-- find_executable finds a .exe in the install directory of a. -/
  exeFound : String → Bool

/-- Filesystem actions of one engine run, tagged with the application
name whose directories they touch. -/
inductive Act where
  /-- fs::rename(current_exe, current_exe.with_extension(..)) in the
  self-update branch. -/
  | renameInstallerAside
  /-- copy_with_progress of the newest source archive of a into the
  local appdata staging location. -/
  | copyZip (a : String)
  /-- fs::create_dir_all(local_appdata.join(a)) at the head of
  unzip_file. -/
  | createDirTree (a : String)
  /-- The per-entry extraction loop of unzip_file writing into
  local_appdata.join(a). -/
  | extractInto (a : String)
  /-- fs::remove_file of the staged archive copied for a. -/
  | removeStagedZip (a : String)
  /-- fs::remove_dir_all(local_appdata.join(a)) in delete_directory. -/
  | deleteAppDir (a : String)
  /-- Shortcut creation for the located executable of a. -/
  | createShortcut (a : String)
  /-- Command::new(exe).spawn() for a. -/
  | launch (a : String)
  /-- PostQuitMessage(0) (main.rs line 1037; the corresponding call in
  install_utils.rs line 198 is commented out). -/
  | postQuit
  /-- The AlreadyRunning error report of the running-process check. -/
  | reportAlreadyRunning
  deriving DecidableEq, Repr

/-- copy_latest_zip(app): actions performed, and whether a staged copy
path was returned (main.rs lines 674-774). -/
def copy_latest_zip (env : Env) (app : String) :
    List Act × Bool :=
  match env.sourceFor app with
  | none => ([], false)
  | some entries =>
      match selectNewestZip entries with
      | none => ([], false)
      | some _ =>
          if env.localAppdata then ([Act.copyZip app], true)
          else ([], false)

/-- unzip_file(zip, app): creates the install directory, then extracts
every parsed entry into it (main.rs lines 878-927); when opening,
reading or parsing the staged archive fails the function returns after
the directory creation. -/
def unzip_file (env : Env) (app : String) : List Act :=
  if env.localAppdata then
    Act.createDirTree app ::
      (if env.stagedZipParses then [Act.extractInto app] else [])
  else
    []

/-- get_installer(): stage and unpack the newest installer archive
into the installer's own directory (main.rs lines 1049-1058). -/
def get_installer (env : Env) : List Act :=
  match copy_latest_zip env "AppInstaller" with
  | (acts, true) =>
      acts ++ unzip_file env "AppInstaller" ++
        [Act.removeStagedZip "AppInstaller"]
  | (acts, false) => acts

/-- update_installer() from main.rs lines 994-1047: fetch the
installer when never installed; otherwise compare the newest remote
archive's modification time with the running executable's and, when
strictly newer, rename the executable aside, re-stage, and post the
quit message. -/
def update_installer (env : Env) : List Act :=
  if env.localAppdata then
    if !env.localInstallerDirExists then
      get_installer env
    else if env.currentExeOk then
      match env.currentExeMtime with
      | some local_time =>
          match (env.sourceFor "AppInstaller").bind selectNewestZip with
          | some (_, remote_time) =>
              if remote_time > local_time then
                Act.renameInstallerAside ::
                  (get_installer env ++ [Act.postQuit])
              else
                []
          | none => []
      | none => []
    else
      []
  else
    []

/-- delete_directory(app) from main.rs lines 810-832: remove the
target's install directory when present. -/
def delete_directory (env : Env) (app : String) : List Act :=
  if env.localAppdata && env.appDirExists app then
    [Act.deleteAppDir app]
  else
    []

/-- run_installation(app) from main.rs lines 608-658: self-update
check, running-process check, uninstall, stage, extract, locate
executable, shortcut, launch, staged-archive cleanup. -/
def run_installation (env : Env) (app : String) : List Act :=
  update_installer env ++
    (if (app ++ ".exe") ∈ env.runningProcesses then
      [Act.reportAlreadyRunning]
    else
      delete_directory env app ++
        match copy_latest_zip env app with
        | (acts, true) =>
            acts ++ unzip_file env app ++
              (if env.localAppdata then
                (if env.exeFound app then
                  [Act.createShortcut app, Act.launch app]
                else [])
              else []) ++
              [Act.removeStagedZip app]
        | (acts, false) => acts)

/-! ### Fuel-indexed scanning loop

The Rust while loop is a priori just a loop; parseGoFuel is the same
loop body with an explicit iteration budget, returning none when the
budget is exhausted.  Termination of the scan (claim C9) is the fact
that a budget linear in the buffer length always suffices, because the
index strictly increases on every iteration (by 1 on a non-match and
by at least 46 on a match). -/

/-- parseGo with an explicit bound on the number of loop iterations;
none means the bound was exhausted before the scan finished. -/
def parseGoFuel (sig : List Nat) (buffer : List Nat) :
    Nat → Nat → Option (Except ParseErr (List ZipEntry))
  | 0, _ => none
  | fuel + 1, i =>
    if i + 4 ≤ buffer.length then
      if sliceBytes buffer i (i + 4) = sig then
        if i + 46 > buffer.length then
          some (.error .incompleteHeader)
        else
          if i + 46 + (readU16 buffer (i + 28) + readU16 buffer (i + 30) +
              readU16 buffer (i + 32)) > buffer.length then
            some (.error .incompleteTrailer)
          else
            match parseGoFuel sig buffer fuel
                (i + 46 + (readU16 buffer (i + 28) + readU16 buffer (i + 30) +
                  readU16 buffer (i + 32))) with
            | none => none
            | some (.error e) => some (.error e)
            | some (.ok rest) =>
                some (.ok ({ file_name :=
                               sliceBytes buffer (i + 46)
                                 (i + 46 + readU16 buffer (i + 28)),
                             compressed_size := readU32 buffer (i + 20),
                             compression_method := readU16 buffer (i + 10),
                             local_header_offset := readU32 buffer (i + 42) }
                  :: rest))
      else
        parseGoFuel sig buffer fuel (i + 1)
    else
      some (.ok [])

instance {ε α : Type} [DecidableEq ε] [DecidableEq α] :
    DecidableEq (Except ε α) := fun x y =>
  match x, y with
  | .ok a, .ok b =>
      if h : a = b then isTrue (by rw [h]) else isFalse (by simp [h])
  | .error a, .error b =>
      if h : a = b then isTrue (by rw [h]) else isFalse (by simp [h])
  | .ok _, .error _ => isFalse (by simp)
  | .error _, .ok _ => isFalse (by simp)

/-! ### Concrete fixtures used by counterexamples and witnesses -/

/-- A 46-byte buffer holding exactly one all-zero central-directory
header: the signature PK\x01\x02 followed by 42 zero bytes. -/
def cd46 : List Nat := cdSig ++ List.replicate 42 0

/-- A 30-byte buffer holding one local file header with zero name and
extra lengths and no payload. -/
def lhBuf30 : List Nat := localSig ++ List.replicate 26 0

/-- lhBuf30 followed by a 3-byte stored payload. -/
def lhBuf33 : List Nat := localSig ++ List.replicate 26 0 ++ [9, 9, 9]

/-- A deflate decoder stub that always fails; the fixtures below never
reach it. -/
def inflate0 : List Nat → Except Unit (List Nat) := fun _ => .error ()

/-- Entry named "f" (byte 0x66) with unsupported compression method 5,
whose local header is at offset 0 of lhBuf30. -/
def entryUnsup : ZipEntry :=
  { file_name := [0x66], compressed_size := 0, compression_method := 5,
    local_header_offset := 0 }

/-- Entry named "f" with unsupported compression method 5 whose
local_header_offset points far past the end of any small buffer. -/
def entryUnsupBad : ZipEntry :=
  { file_name := [0x66], compressed_size := 1, compression_method := 5,
    local_header_offset := 100 }

/-- Directory entry "d/" (bytes 0x64 0x2f) whose local_header_offset
points far past the end of any small buffer. -/
def entryDirBad : ZipEntry :=
  { file_name := [0x64, 0x2f], compressed_size := 1, compression_method := 0,
    local_header_offset := 100 }

/-- Directory entry "d/" with a nonzero compressed_size of 3, whose
local header is at offset 0 of lhBuf33. -/
def entryDirOk : ZipEntry :=
  { file_name := [0x64, 0x2f], compressed_size := 3, compression_method := 0,
    local_header_offset := 0 }

/-- Two zip candidates with equal modification times; directory
enumeration observes "b.zip" first. -/
def tieEntries : List DirEntry :=
  [{ path := "b.zip", isFile := true, ext := some "zip", mtime := some 5 },
   { path := "a.zip", isFile := true, ext := some "zip", mtime := some 5 }]

/-- Candidate "z.zip": lexically greatest name, oldest time. -/
def zEntry : DirEntry :=
  { path := "z.zip", isFile := true, ext := some "zip", mtime := some 3 }

/-- Candidate "a.zip": first to attain the newest time 7. -/
def aEntry : DirEntry :=
  { path := "a.zip", isFile := true, ext := some "zip", mtime := some 7 }

/-- Candidate "b.zip": attains the newest time 7 after "a.zip". -/
def bEntry : DirEntry :=
  { path := "b.zip", isFile := true, ext := some "zip", mtime := some 7 }

/-- Three zip candidates: the lexically greatest name has the oldest
time, the newest time 7 is attained first by "a.zip" and again by
"b.zip". -/
def threeEntries : List DirEntry := [zEntry, aEntry, bEntry]

/-- Environment: installer present with modification time 10, remote
installer archive newer (time 20), target application MyApp not
running, everything else available. -/
def envSelfUpd : Env :=
  { localAppdata := true
    localInstallerDirExists := true
    currentExeOk := true
    currentExeMtime := some 10
    sourceFor := fun a =>
      if a = "AppInstaller" then
        some [{ path := "inst.zip", isFile := true, ext := some "zip",
                mtime := some 20 }]
      else if a = "MyApp" then
        some [{ path := "app.zip", isFile := true, ext := some "zip",
                mtime := some 5 }]
      else none
    runningProcesses := []
    appDirExists := fun _ => true
    stagedZipParses := true
    exeFound := fun _ => true }

/-- envSelfUpd with the local installer as new as the remote archive
(both time 20): the equal-modification-time self-update case. -/
def envEqTimes : Env :=
  { envSelfUpd with currentExeMtime := some 20 }

/-- Environment: the installer has never been installed locally (so
the self-update phase fetches it), and a process AppInstaller.exe is
running while the target application is AppInstaller itself. -/
def envSelfFetch : Env :=
  { localAppdata := true
    localInstallerDirExists := false
    currentExeOk := true
    currentExeMtime := some 0
    sourceFor := fun a =>
      if a = "AppInstaller" then
        some [{ path := "inst.zip", isFile := true, ext := some "zip",
                mtime := some 20 }]
      else none
    runningProcesses := ["AppInstaller.exe"]
    appDirExists := fun _ => true
    stagedZipParses := true
    exeFound := fun _ => true }

/-- Environment: MyApp.exe is running; the installer is up to date. -/
def envRunning : Env :=
  { envSelfUpd with
    currentExeMtime := some 30
    runningProcesses := ["MyApp.exe"] }

/-! ### Helper lemmas -/

/-- A slice whose right end is inside the buffer has its full
requested width: the in-bounds fact behind every
try_into().unwrap(). -/
theorem sliceBytes_length (buffer : List Nat) (a b : Nat)
    (hb : b ≤ buffer.length) :
    (sliceBytes buffer a b).length = b - a := by
  simp [sliceBytes]
  omega

/-- A loop budget strictly larger than the number of bytes left to
scan is never exhausted: the fuel-indexed loop computes exactly the
scan result, whatever sufficient fuel the scan itself carries. -/
theorem parseGoFuel_eq (sig buffer : List Nat) :
    ∀ fuel i, buffer.length - i < fuel →
      ∀ fuel2 (h2 : buffer.length - i < fuel2),
        parseGoFuel sig buffer fuel i =
          some (parseGoAux sig buffer fuel2 i h2) := by
  intro fuel
  induction fuel with
  | zero => intro i h; omega
  | succ n ih =>
      intro i h fuel2 h2
      cases fuel2 with
      | zero => omega
      | succ m =>
          rw [parseGoFuel, parseGoAux]
          by_cases h4 : i + 4 ≤ buffer.length
          · by_cases hsig : sliceBytes buffer i (i + 4) = sig
            · by_cases h46 : i + 46 > buffer.length
              · simp [h4, hsig, h46]
              · by_cases htr : i + 46 + (readU16 buffer (i + 28) +
                    readU16 buffer (i + 30) + readU16 buffer (i + 32)) >
                    buffer.length
                · simp [h4, hsig, h46, htr]
                · have hrec := ih (i + 46 + (readU16 buffer (i + 28) +
                    readU16 buffer (i + 30) + readU16 buffer (i + 32)))
                    (by omega) m (by omega)
                  simp only [h4, hsig, h46, htr, hrec, dif_pos, if_pos,
                    ite_true, ite_false, not_false_iff]
                  cases hr : parseGoAux sig buffer m (i + 46 +
                      (readU16 buffer (i + 28) + readU16 buffer (i + 30) +
                        readU16 buffer (i + 32))) (by omega) with
                  | error e => rw [hr] at hrec; simp [hrec, hr]
                  | ok rest => rw [hr] at hrec; simp [hrec, hr]
            · have hrec := ih (i + 1) (by omega) m (by omega)
              simp [h4, hsig, hrec]
          · simp [h4]

/-- When no window of the buffer from position i on matches the
signature, the scan runs to the end of the buffer and accumulates
nothing. -/
theorem parseGoAux_no_match (sig buffer : List Nat) :
    ∀ fuel i (h : buffer.length - i < fuel),
      (∀ j, i ≤ j → j + 4 ≤ buffer.length →
        sliceBytes buffer j (j + 4) ≠ sig) →
      parseGoAux sig buffer fuel i h = .ok [] := by
  intro fuel
  induction fuel with
  | zero => intro i h; omega
  | succ n ih =>
      intro i h hno
      rw [parseGoAux]
      by_cases h4 : i + 4 ≤ buffer.length
      · have hsig := hno i (Nat.le_refl i) h4
        simp only [h4, dif_pos, hsig, if_neg, ite_false]
        exact ih (i + 1) (by omega)
          (fun j hj => hno j (by omega))
      · simp [h4]

/-- If every zip candidate in l is no newer than the accumulator's
time, the loop keeps the accumulator: the strict comparison never
replaces it. -/
theorem newestGo_keeps (l : List DirEntry) : ∀ p t,
    (∀ d ∈ l, d.isFile = true → d.ext = some "zip" →
      ∀ m, d.mtime = some m → m ≤ t) →
    newestGo (some (p, t)) l = some (p, t) := by
  induction l with
  | nil => intro p t hpost; rfl
  | cons e rest ih =>
      intro p t hpost
      rw [newestGo]
      have hstep : newestStep (some (p, t)) e = some (p, t) := by
        unfold newestStep
        by_cases hz : (e.isFile && e.ext == some "zip") = true
        · simp only [hz, if_pos]
          cases hme : e.mtime with
          | none => rfl
          | some m =>
              have hzp := hz
              simp only [Bool.and_eq_true, beq_iff_eq] at hzp
              have hle : m ≤ t := hpost e (List.mem_cons_self e rest)
                hzp.1 hzp.2 m hme
              simp [Nat.not_lt.mpr hle]
        · simp [hz]
      rw [hstep]
      exact ih p t (fun d hd => hpost d (List.mem_cons_of_mem e hd))

/-- Processing zip candidates all strictly older than t keeps the
accumulator below t (or absent); the first candidate with time t then
wins and survives all later candidates with times at most t. -/
theorem newestGo_first_max (e : DirEntry) (t : Nat) (post : List DirEntry)
    (he : e.isFile = true) (hx : e.ext = some "zip") (hm : e.mtime = some t)
    (hpost : ∀ d ∈ post, d.isFile = true → d.ext = some "zip" →
      ∀ m, d.mtime = some m → m ≤ t) :
    ∀ (pre : List DirEntry) (acc : Option (String × Nat)),
      (∀ d ∈ pre, d.isFile = true → d.ext = some "zip" →
        ∀ m, d.mtime = some m → m < t) →
      (acc = none ∨ ∃ q s, acc = some (q, s) ∧ s < t) →
      newestGo acc (pre ++ e :: post) = some (e.path, t) := by
  intro pre
  induction pre with
  | nil =>
      intro acc _ hacc
      rw [List.nil_append, newestGo]
      have hz : (e.isFile && e.ext == some "zip") = true := by
        simp [he, hx]
      have hstep : newestStep acc e = some (e.path, t) := by
        unfold newestStep
        rcases hacc with rfl | ⟨q, s, rfl, hs⟩
        · simp [hz, hm]
        · simp [hz, hm, hs]
      rw [hstep]
      exact newestGo_keeps post e.path t hpost
  | cons d pre ih =>
      intro acc hpre hacc
      rw [List.cons_append, newestGo]
      refine ih (newestStep acc d)
        (fun d2 hd2 => hpre d2 (List.mem_cons_of_mem d hd2)) ?_
      unfold newestStep
      by_cases hz : (d.isFile && d.ext == some "zip") = true
      · cases hmd : d.mtime with
        | none => simpa [hz, hmd] using hacc
        | some m =>
            have hzp := hz
            simp only [Bool.and_eq_true, beq_iff_eq] at hzp
            have hmt : m < t := hpre d (List.mem_cons_self d pre)
              hzp.1 hzp.2 m hmd
            rcases hacc with rfl | ⟨q, s, rfl, hs⟩
            · right
              exact ⟨d.path, m, by simp [hz, hmd], hmt⟩
            · by_cases hgt : m > s
              · right
                exact ⟨d.path, m, by simp [hz, hmd, hgt], hmt⟩
              · right
                exact ⟨q, s, by simp [hz, hmd, hgt], hs⟩
      · simpa [hz] using hacc

/-- Every action of get_installer touches only the installer's own
channel: it stages, unpacks and cleans up for "AppInstaller". -/
theorem get_installer_acts (env : Env) :
    ∀ x ∈ get_installer env,
      x = Act.copyZip "AppInstaller" ∨ x = Act.createDirTree "AppInstaller" ∨
      x = Act.extractInto "AppInstaller" ∨
      x = Act.removeStagedZip "AppInstaller" := by
  intro x hx
  unfold get_installer copy_latest_zip unzip_file at hx
  cases hsf : env.sourceFor "AppInstaller" with
  | none => simp [hsf] at hx
  | some entries =>
      simp only [hsf] at hx
      cases hsel : selectNewestZip entries with
      | none => simp [hsel] at hx
      | some pr =>
          simp only [hsel] at hx
          by_cases hla : env.localAppdata = true
          · by_cases hzp : env.stagedZipParses = true
            · simp [hla, hzp] at hx
              tauto
            · simp [hla, hzp] at hx
              tauto
          · simp [hla] at hx

/-- Every action of update_installer is either one of the self-update
bookkeeping actions or an installer-channel action of
get_installer. -/
theorem update_installer_acts (env : Env) :
    ∀ x ∈ update_installer env,
      x = Act.renameInstallerAside ∨ x = Act.postQuit ∨
      x = Act.copyZip "AppInstaller" ∨ x = Act.createDirTree "AppInstaller" ∨
      x = Act.extractInto "AppInstaller" ∨
      x = Act.removeStagedZip "AppInstaller" := by
  intro x hx
  unfold update_installer at hx
  by_cases hla : env.localAppdata = true
  · rw [if_pos hla] at hx
    by_cases hld : env.localInstallerDirExists = true
    · simp only [hld, Bool.not_true, Bool.false_eq_true, if_false,
        ite_false] at hx
      by_cases hce : env.currentExeOk = true
      · rw [if_pos hce] at hx
        cases hmt : env.currentExeMtime with
        | none => simp [hmt] at hx
        | some t =>
            simp only [hmt] at hx
            cases hsel : (env.sourceFor "AppInstaller").bind selectNewestZip
              with
            | none => simp [hsel] at hx
            | some pr =>
                obtain ⟨p, rt⟩ := pr
                simp only [hsel] at hx
                by_cases hgt : rt > t
                · rw [if_pos hgt] at hx
                  rcases List.mem_cons.mp hx with h | h
                  · tauto
                  · rcases List.mem_append.mp h with h2 | h2
                    · have := get_installer_acts env x h2
                      tauto
                    · simp at h2
                      tauto
                · rw [if_neg hgt] at hx
                  simp at hx
      · rw [if_neg hce] at hx
        simp at hx
    · simp only [hld, Bool.not_false, if_true, ite_true] at hx
      have := get_installer_acts env x ?_
      · tauto
      · simpa using hx
  · rw [if_neg hla] at hx
    simp at hx

/-- The installer rename happens only inside the strictly-newer
self-update branch; when it happens, the whole update_installer call
is exactly the rename followed by the staging and extraction of the
new installer and the posting of the quit message. -/
theorem rename_branch_structure (env : Env)
    (h : Act.renameInstallerAside ∈ update_installer env) :
    update_installer env =
      Act.renameInstallerAside :: (get_installer env ++ [Act.postQuit]) := by
  unfold update_installer at h ⊢
  by_cases hla : env.localAppdata = true
  · rw [if_pos hla] at h ⊢
    by_cases hld : env.localInstallerDirExists = true
    · simp only [hld, Bool.not_true, Bool.false_eq_true, if_false,
        ite_false] at h ⊢
      by_cases hce : env.currentExeOk = true
      · rw [if_pos hce] at h ⊢
        cases hmt : env.currentExeMtime with
        | none => simp [hmt] at h
        | some t =>
            simp only [hmt] at h ⊢
            cases hsel : (env.sourceFor "AppInstaller").bind selectNewestZip
              with
            | none => simp [hsel] at h
            | some pr =>
                obtain ⟨p, rt⟩ := pr
                simp only [hsel] at h ⊢
                by_cases hgt : rt > t
                · simp [hgt]
                · simp [hgt] at h
      · rw [if_neg hce] at h
        simp at h
    · simp only [hld, Bool.not_false, if_true, ite_true] at h
      have := get_installer_acts env Act.renameInstallerAside (by simpa using h)
      simp at this
  · rw [if_neg hla] at h
    simp at h

/-! ### Claim theorems -/

/-- C4 counterexample: two candidate archives with equal maximal
modification times, "b.zip" observed first in enumeration order.  The
loop's strictly-greater comparison keeps the first observed candidate,
so "b.zip" is selected — not the last observed "a.zip" as the claim
states. -/
theorem c4_tie_counterexample :
    selectNewestZip tieEntries = some ("b.zip", 5) ∧
    selectNewestZip tieEntries ≠ some ("a.zip", 5) := by
  decide

/-- C4 (amended): for every source directory listing, the staging step
selects the .zip file with the most recent modification time
regardless of lexical filename ordering; when several candidates share
the maximal modification time, the FIRST one observed in
directory-enumeration order is selected.  Formally: if the listing
splits as pre ++ e :: post where e is a zip candidate with time t,
every zip candidate before it is strictly older, and every one after
it is no newer, then e is selected. -/
theorem c4_first_newest_selected (pre post : List DirEntry) (e : DirEntry)
    (t : Nat) (he : e.isFile = true) (hx : e.ext = some "zip")
    (hm : e.mtime = some t)
    (hpre : ∀ d ∈ pre, d.isFile = true → d.ext = some "zip" →
      ∀ m, d.mtime = some m → m < t)
    (hpost : ∀ d ∈ post, d.isFile = true → d.ext = some "zip" →
      ∀ m, d.mtime = some m → m ≤ t) :
    selectNewestZip (pre ++ e :: post) = some (e.path, t) :=
  newestGo_first_max e t post he hx hm hpost pre none hpre (Or.inl rfl)

/-- Witness for C4 (amended) at threeEntries: the newest time 7 is
attained first by "a.zip" (lexically smaller than the older "z.zip"),
and again by the later "b.zip"; "a.zip" is selected. -/
theorem c4_first_newest_selected_witness :
    selectNewestZip threeEntries = some ("a.zip", 7) := by
  have hpre : ∀ d ∈ [zEntry], d.isFile = true →
      d.ext = some "zip" → ∀ m, d.mtime = some m → m < 7 := by
    intro d hd h1 h2 m hmm
    rw [List.mem_singleton] at hd
    subst hd
    simp only [zEntry, Option.some.injEq] at hmm
    omega
  have hpost : ∀ d ∈ [bEntry], d.isFile = true →
      d.ext = some "zip" → ∀ m, d.mtime = some m → m ≤ 7 := by
    intro d hd h1 h2 m hmm
    rw [List.mem_singleton] at hd
    subst hd
    simp only [bEntry, Option.some.injEq] at hmm
    omega
  exact c4_first_newest_selected [zEntry] [bEntry] aEntry 7
    rfl rfl rfl hpre hpost

/-- C8: for every input buffer containing zero occurrences of the
central-directory signature PK\x01\x02, parse_central_directory
(zip_utils.rs) returns an empty entry list and not an error. -/
theorem c8_no_signature_yields_empty (buffer : List Nat)
    (h : ∀ j, j + 4 ≤ buffer.length →
      sliceBytes buffer j (j + 4) ≠ cdSig) :
    zip_parse_central_directory buffer = .ok [] :=
  parseGoAux_no_match cdSig buffer (buffer.length + 1) 0 (by omega)
    (fun j _ hj => h j hj)

/-- Witness for C8 at the concrete signature-free buffer
[0, 0, 0, 0, 0]. -/
theorem c8_no_signature_yields_empty_witness :
    zip_parse_central_directory [0, 0, 0, 0, 0] = .ok [] := by
  have h : ∀ j, j + 4 ≤ ([0, 0, 0, 0, 0] : List Nat).length →
      sliceBytes [0, 0, 0, 0, 0] j (j + 4) ≠ cdSig := by
    intro j hj
    have hj1 : j ≤ 1 := by simp at hj; omega
    interval_cases j <;> decide
  exact c8_no_signature_yields_empty [0, 0, 0, 0, 0] h

/-- C9: the central-directory scan terminates on every finite buffer:
because the scan index strictly increases on every loop iteration (by
1 on a non-match and by at least 46 on a match), an iteration budget
of buffer.length + 1 is never exhausted, and the budgeted loop yields
exactly the parse result — for both copies of the parser. -/
theorem c9_scan_terminates (buffer : List Nat) :
    parseGoFuel cdSig buffer (buffer.length + 1) 0 =
      some (zip_parse_central_directory buffer) ∧
    parseGoFuel localSig buffer (buffer.length + 1) 0 =
      some (main_parse_central_directory buffer) :=
  ⟨parseGoFuel_eq cdSig buffer (buffer.length + 1) 0 (by omega)
      (buffer.length + 1) (by omega),
    parseGoFuel_eq localSig buffer (buffer.length + 1) 0 (by omega)
      (buffer.length + 1) (by omega)⟩

/-- C10: every slice read by parse_central_directory and extract_file
is in bounds (so every Rust indexing and try_into().unwrap() is
panic-free) once the respective bound check has passed: in parse, the
signature window under the loop guard and each fixed-offset field read
within [i+10, i+46) under the i+46 check; in extract, the signature
read at [offset, offset+4) and the header reads within
[offset+26, offset+30) under the offset+30 check, and the payload
slice under the data_end check. -/
theorem c10_reads_in_bounds (buffer : List Nat) :
    (∀ i, i + 4 ≤ buffer.length →
      (sliceBytes buffer i (i + 4)).length = 4) ∧
    (∀ i, i + 46 ≤ buffer.length →
      (sliceBytes buffer (i + 10) (i + 12)).length = 2 ∧
      (sliceBytes buffer (i + 20) (i + 24)).length = 4 ∧
      (sliceBytes buffer (i + 28) (i + 30)).length = 2 ∧
      (sliceBytes buffer (i + 30) (i + 32)).length = 2 ∧
      (sliceBytes buffer (i + 32) (i + 34)).length = 2 ∧
      (sliceBytes buffer (i + 42) (i + 46)).length = 4) ∧
    (∀ off, off + 30 ≤ buffer.length →
      (sliceBytes buffer off (off + 4)).length = 4 ∧
      (sliceBytes buffer (off + 26) (off + 28)).length = 2 ∧
      (sliceBytes buffer (off + 28) (off + 30)).length = 2) ∧
    (∀ ds de, de ≤ buffer.length →
      (sliceBytes buffer ds de).length = de - ds) := by
  refine ⟨fun i hi => ?_, fun i hi => ?_, fun off ho => ?_,
    fun ds de hde => ?_⟩
  · rw [sliceBytes_length buffer i (i + 4) (by omega)]
    omega
  · refine ⟨?_, ?_, ?_, ?_, ?_, ?_⟩ <;>
      (rw [sliceBytes_length buffer _ _ (by omega)]; omega)
  · refine ⟨?_, ?_, ?_⟩ <;>
      (rw [sliceBytes_length buffer _ _ (by omega)]; omega)
  · exact sliceBytes_length buffer ds de hde

/-- Witness for C10 at a concrete 46-byte buffer. -/
theorem c10_reads_in_bounds_witness :
    (sliceBytes (List.replicate 46 0) 0 4).length = 4 ∧
    (sliceBytes (List.replicate 46 0) 10 12).length = 2 ∧
    (sliceBytes (List.replicate 46 0) 26 28).length = 2 ∧
    (sliceBytes (List.replicate 46 0) 30 46).length = 16 :=
  ⟨(c10_reads_in_bounds (List.replicate 46 0)).1 0 (by decide),
    ((c10_reads_in_bounds (List.replicate 46 0)).2.1 0 (by decide)).1,
    ((c10_reads_in_bounds (List.replicate 46 0)).2.2.1 0 (by decide)).2.1,
    by
      have h := (c10_reads_in_bounds (List.replicate 46 0)).2.2.2 30 46
        (by decide)
      simpa using h⟩

/-- C3: evaluation of both parse_central_directory copies at the
46-byte buffer cd46 holding exactly one all-zero central-directory
header.  zip_utils.rs parses the one entry; main.rs scans for
PK\x03\x04 instead of PK\x01\x02, matches nothing, and returns the
empty list — the two copies are not the same logic. -/
theorem c3_parsers_disagree :
    zip_parse_central_directory cd46 =
      .ok [{ file_name := [], compressed_size := 0, compression_method := 0,
             local_header_offset := 0 }] ∧
    main_parse_central_directory cd46 = .ok [] ∧
    zip_parse_central_directory cd46 ≠ main_parse_central_directory cd46 := by
  refine ⟨by decide, by decide, ?_⟩
  intro h
  rw [(by decide : zip_parse_central_directory cd46 =
    .ok [{ file_name := [], compressed_size := 0, compression_method := 0,
           local_header_offset := 0 }]),
    (by decide : main_parse_central_directory cd46 = .ok [])] at h
  exact absurd h (by decide)

/-- C1 counterexample: extract_file on the entry entryUnsup (name "f",
compression method 5) over the well-formed 30-byte local header lhBuf30
returns UnsupportedCompression, but the filesystem is NOT unchanged
apart from parent-directory creation: the output file d/f has been
created and truncated to empty before the error is raised (the Rust
code opens with create+truncate before dispatching on the method). -/
theorem c1_unsupported_leaves_file_counterexample :
    extract_file inflate0 entryUnsup lhBuf30 [0x64] ⟨[], []⟩ =
      ({ dirs := [[0x64]], files := [([0x64, 0x2f, 0x66], [])] },
        .error (.unsupportedCompression 5)) ∧
    (extract_file inflate0 entryUnsup lhBuf30 [0x64] ⟨[], []⟩).1.files ≠
      (⟨[], []⟩ : FSState).files := by
  decide

/-- C1 (amended): for every entry whose compression method is neither
0 nor 8 and whose name is not a directory name, extract_file never
succeeds and never writes payload bytes: the resulting filesystem is
either unchanged (when a local-header or payload bound check fails
first, returning that earlier error) or is exactly the old state plus
the parent directories and the output file created and truncated to
empty, with the UnsupportedCompression(method) error; once the
local-header and payload bound checks pass, the latter outcome is what
happens. -/
theorem c1_unsupported_creates_truncated_file
    (inflate : List Nat → Except Unit (List Nat)) (entry : ZipEntry)
    (buffer dest : List Nat) (st : FSState)
    (hm0 : entry.compression_method ≠ 0)
    (hm8 : entry.compression_method ≠ 8)
    (hdir : endsWithSlash entry.file_name = false) :
    ((extract_file inflate entry buffer dest st).1 = st ∨
      extract_file inflate entry buffer dest st =
        (openCreateTruncate
          (createDirAll st (parentPath (joinPath dest entry.file_name)))
          (joinPath dest entry.file_name),
         .error (.unsupportedCompression entry.compression_method))) ∧
    (extract_file inflate entry buffer dest st).2 ≠ .ok () ∧
    (entry.local_header_offset + 30 ≤ buffer.length →
      sliceBytes buffer entry.local_header_offset
        (entry.local_header_offset + 4) = localSig →
      entry.local_header_offset + 30 +
        readU16 buffer (entry.local_header_offset + 26) +
        readU16 buffer (entry.local_header_offset + 28) +
        entry.compressed_size ≤ buffer.length →
      extract_file inflate entry buffer dest st =
        (openCreateTruncate
          (createDirAll st (parentPath (joinPath dest entry.file_name)))
          (joinPath dest entry.file_name),
         .error (.unsupportedCompression entry.compression_method))) := by
  by_cases hA : entry.local_header_offset + 30 > buffer.length
  · have hres : extract_file inflate entry buffer dest st =
        (st, .error .incompleteLocalHeader) := by
      unfold extract_file
      simp [hA]
    exact ⟨Or.inl (by rw [hres]), by rw [hres]; simp,
      fun h30 _ _ => absurd hA (by omega)⟩
  · by_cases hB : sliceBytes buffer entry.local_header_offset
        (entry.local_header_offset + 4) ≠ localSig
    · have hres : extract_file inflate entry buffer dest st =
          (st, .error .invalidLocalSignature) := by
        unfold extract_file
        simp [hA, hB]
      exact ⟨Or.inl (by rw [hres]), by rw [hres]; simp,
        fun _ hsig _ => absurd hsig hB⟩
    · have hBeq : sliceBytes buffer entry.local_header_offset
          (entry.local_header_offset + 4) = localSig := not_not.mp hB
      by_cases hC : entry.local_header_offset + 30 +
          readU16 buffer (entry.local_header_offset + 26) +
          readU16 buffer (entry.local_header_offset + 28) +
          entry.compressed_size > buffer.length
      · have hres : extract_file inflate entry buffer dest st =
            (st, .error .dataExceedsBuffer) := by
          unfold extract_file
          simp [hA, hBeq, hC]
        exact ⟨Or.inl (by rw [hres]), by rw [hres]; simp,
          fun _ _ hend => absurd hC (by omega)⟩
      · have hres : extract_file inflate entry buffer dest st =
            (openCreateTruncate
              (createDirAll st (parentPath (joinPath dest entry.file_name)))
              (joinPath dest entry.file_name),
             .error (.unsupportedCompression entry.compression_method)) := by
          unfold extract_file
          simp [hA, hBeq, hC, hdir, hm0, hm8]
        exact ⟨Or.inr hres, by rw [hres]; simp, fun _ _ _ => hres⟩

/-- Witness for C1 (amended): at a concrete method-7 entry with a
valid local header the output file is created empty next to the
UnsupportedCompression error, and at the method-5 entry entryUnsupBad,
whose local_header_offset is out of bounds, the call still does not
succeed and the filesystem is untouched or left with only the empty
output file. -/
theorem c1_unsupported_creates_truncated_file_witness :
    extract_file inflate0
        { file_name := [0x67], compressed_size := 0, compression_method := 7,
          local_header_offset := 0 } lhBuf30 [0x65] ⟨[], []⟩ =
      (openCreateTruncate
        (createDirAll ⟨[], []⟩ (parentPath (joinPath [0x65] [0x67])))
        (joinPath [0x65] [0x67]),
       .error (.unsupportedCompression 7)) ∧
    (extract_file inflate0 entryUnsupBad [0, 0, 0] [0x64] ⟨[], []⟩).2 ≠
      .ok () ∧
    ((extract_file inflate0 entryUnsupBad [0, 0, 0] [0x64] ⟨[], []⟩).1 =
        (⟨[], []⟩ : FSState) ∨
      extract_file inflate0 entryUnsupBad [0, 0, 0] [0x64] ⟨[], []⟩ =
        (openCreateTruncate
          (createDirAll ⟨[], []⟩
            (parentPath (joinPath [0x64] entryUnsupBad.file_name)))
          (joinPath [0x64] entryUnsupBad.file_name),
         .error (.unsupportedCompression entryUnsupBad.compression_method))) :=
  ⟨(c1_unsupported_creates_truncated_file inflate0
      { file_name := [0x67], compressed_size := 0, compression_method := 7,
        local_header_offset := 0 } lhBuf30 [0x65] ⟨[], []⟩
      (by decide) (by decide) (by decide)).2.2
      (by decide) (by decide) (by decide),
    (c1_unsupported_creates_truncated_file inflate0 entryUnsupBad [0, 0, 0]
      [0x64] ⟨[], []⟩ (by decide) (by decide) (by decide)).2.1,
    (c1_unsupported_creates_truncated_file inflate0 entryUnsupBad [0, 0, 0]
      [0x64] ⟨[], []⟩ (by decide) (by decide) (by decide)).1⟩

/-- C6 counterexample: the directory-named entry entryDirBad ("d/")
has its local_header_offset outside the buffer, so extract_file
returns an error and creates no directory at all — "for every ZipEntry
whose file_name ends with '/' extract_file creates the corresponding
directory" fails without the bound-check proviso. -/
theorem c6_dir_entry_counterexample :
    extract_file inflate0 entryDirBad [0, 0, 0] [0x64] ⟨[], []⟩ =
      (⟨[], []⟩, .error .incompleteLocalHeader) ∧
    (extract_file inflate0 entryDirBad [0, 0, 0] [0x64] ⟨[], []⟩).1.dirs =
      [] := by
  decide

/-- C6 (amended): for every entry whose name ends with '/',
extract_file never writes or creates a file (in every case, valid or
not); and once the local-header and payload bound checks pass it
creates the directory (with parents) and succeeds — even when
compressed_size is nonzero. -/
theorem c6_dir_entry_creates_directory
    (inflate : List Nat → Except Unit (List Nat)) (entry : ZipEntry)
    (buffer dest : List Nat) (st : FSState)
    (hdir : endsWithSlash entry.file_name = true) :
    (extract_file inflate entry buffer dest st).1.files = st.files ∧
    (entry.local_header_offset + 30 ≤ buffer.length →
      sliceBytes buffer entry.local_header_offset
        (entry.local_header_offset + 4) = localSig →
      entry.local_header_offset + 30 +
        readU16 buffer (entry.local_header_offset + 26) +
        readU16 buffer (entry.local_header_offset + 28) +
        entry.compressed_size ≤ buffer.length →
      extract_file inflate entry buffer dest st =
        (createDirAll st (joinPath dest entry.file_name), .ok ())) := by
  constructor
  · unfold extract_file
    by_cases hA : entry.local_header_offset + 30 > buffer.length
    · simp [hA]
    · by_cases hB : sliceBytes buffer entry.local_header_offset
          (entry.local_header_offset + 4) ≠ localSig
      · simp [hA, hB]
      · by_cases hC : entry.local_header_offset + 30 +
            readU16 buffer (entry.local_header_offset + 26) +
            readU16 buffer (entry.local_header_offset + 28) +
            entry.compressed_size > buffer.length
        · simp [hA, hB, hC]
        · simp [hA, hB, hC, hdir, createDirAll]
  · intro h30 hsig hend
    have hA : ¬ (entry.local_header_offset + 30 > buffer.length) := by omega
    have hC : ¬ (entry.local_header_offset + 30 +
        readU16 buffer (entry.local_header_offset + 26) +
        readU16 buffer (entry.local_header_offset + 28) +
        entry.compressed_size > buffer.length) := by omega
    unfold extract_file
    simp [hA, hC, hsig, hdir]

/-- Witness for C6 (amended) at entryDirOk, whose compressed_size is
the nonzero 3. -/
theorem c6_dir_entry_creates_directory_witness :
    endsWithSlash entryDirOk.file_name = true ∧
    entryDirOk.compressed_size = 3 ∧
    (extract_file inflate0 entryDirOk lhBuf33 [0x64] ⟨[], []⟩).1.files =
      (⟨[], []⟩ : FSState).files ∧
    extract_file inflate0 entryDirOk lhBuf33 [0x64] ⟨[], []⟩ =
      (createDirAll ⟨[], []⟩ (joinPath [0x64] entryDirOk.file_name),
        .ok ()) :=
  ⟨by decide, by decide,
    (c6_dir_entry_creates_directory inflate0 entryDirOk lhBuf33 [0x64]
      ⟨[], []⟩ (by decide)).1,
    (c6_dir_entry_creates_directory inflate0 entryDirOk lhBuf33 [0x64]
      ⟨[], []⟩ (by decide)).2 (by decide) (by decide) (by decide)⟩

/-- C2 counterexample: in the environment envSelfUpd the self-update
phase finds a strictly newer installer archive (remote time 20 against
local time 10), renames the installer aside and re-stages it — and the
very same run then proceeds to uninstall and extract the target
application MyApp.  The run is not terminated: main.rs merely posts
the quit message to the UI loop while the worker continues, and
install_utils.rs has the quit call commented out. -/
theorem c2_run_continues_counterexample :
    Act.renameInstallerAside ∈ run_installation envSelfUpd "MyApp" ∧
    Act.postQuit ∈ run_installation envSelfUpd "MyApp" ∧
    Act.deleteAppDir "MyApp" ∈ run_installation envSelfUpd "MyApp" ∧
    Act.extractInto "MyApp" ∈ run_installation envSelfUpd "MyApp" := by
  decide

/-- C2 (amended): when the self-update phase renames the installer
aside, it stages and extracts the new installer and posts the quit
message — but the run is NOT terminated: the same run_installation
invocation proceeds to the target application's phases (here witnessed
by the uninstall of the target's install directory, reached whenever
the target is not running and its directory exists). -/
theorem c2_selfupdate_does_not_terminate_run (env : Env) (app : String)
    (hre : Act.renameInstallerAside ∈ update_installer env)
    (hnr : (app ++ ".exe") ∉ env.runningProcesses)
    (hla : env.localAppdata = true)
    (hex : env.appDirExists app = true) :
    update_installer env =
      Act.renameInstallerAside :: (get_installer env ++ [Act.postQuit]) ∧
    Act.deleteAppDir app ∈ run_installation env app := by
  refine ⟨rename_branch_structure env hre, ?_⟩
  unfold run_installation
  apply List.mem_append_right
  rw [if_neg hnr]
  apply List.mem_append_left
  unfold delete_directory
  simp [hla, hex]

/-- Witness for C2 (amended) at envSelfUpd with target MyApp. -/
theorem c2_selfupdate_does_not_terminate_run_witness :
    Act.renameInstallerAside ∈ update_installer envSelfUpd ∧
    "MyApp" ++ ".exe" ∉ envSelfUpd.runningProcesses ∧
    update_installer envSelfUpd =
      Act.renameInstallerAside ::
        (get_installer envSelfUpd ++ [Act.postQuit]) ∧
    Act.deleteAppDir "MyApp" ∈ run_installation envSelfUpd "MyApp" :=
  ⟨by decide, by decide,
    (c2_selfupdate_does_not_terminate_run envSelfUpd "MyApp" (by decide)
      (by decide) rfl rfl).1,
    (c2_selfupdate_does_not_terminate_run envSelfUpd "MyApp" (by decide)
      (by decide) rfl rfl).2⟩

/-- C5: the self-update comparison is strict.  Under the conditions in
which the comparison is reached (local appdata available, a local
installer already installed, the running executable's metadata
readable with modification time t), the installer is renamed aside if
and only if the newest remote installer archive's modification time is
strictly greater than t; in particular, when the newest remote archive
has modification time exactly t, no rename occurs. -/
theorem c5_selfupdate_comparison_strict (env : Env) (t : Nat)
    (h1 : env.localAppdata = true) (h2 : env.localInstallerDirExists = true)
    (h3 : env.currentExeOk = true) (h4 : env.currentExeMtime = some t) :
    (Act.renameInstallerAside ∈ update_installer env ↔
      ∃ p rt, (env.sourceFor "AppInstaller").bind selectNewestZip =
        some (p, rt) ∧ t < rt) ∧
    (∀ p, (env.sourceFor "AppInstaller").bind selectNewestZip =
      some (p, t) → Act.renameInstallerAside ∉ update_installer env) := by
  unfold update_installer
  simp only [h1, h2, h3, h4, Bool.not_true, Bool.false_eq_true, if_false,
    ite_false, if_true, ite_true]
  cases hsel : (env.sourceFor "AppInstaller").bind selectNewestZip with
  | none =>
      constructor
      · simp
      · intro p hp
        simp at hp
  | some pr =>
      obtain ⟨p0, rt⟩ := pr
      constructor
      · by_cases hgt : rt > t
        · constructor
          · intro _
            exact ⟨p0, rt, rfl, hgt⟩
          · intro _
            simp [hgt]
        · constructor
          · intro hmem
            simp [hgt] at hmem
          · rintro ⟨p1, rt1, heq, hlt⟩
            simp only [Option.some.injEq, Prod.mk.injEq] at heq
            omega
      · intro p hp
        simp only [Option.some.injEq, Prod.mk.injEq] at hp
        intro hmem
        simp [show ¬ (rt > t) by omega] at hmem

/-- Witness for C5 at envEqTimes, where the newest remote installer
archive and the local installer executable both have modification time
20: no rename occurs. -/
theorem c5_selfupdate_comparison_strict_witness :
    (envEqTimes.sourceFor "AppInstaller").bind selectNewestZip =
      some ("inst.zip", 20) ∧
    Act.renameInstallerAside ∉ update_installer envEqTimes :=
  ⟨by decide,
    (c5_selfupdate_comparison_strict envEqTimes 20 rfl rfl rfl rfl).2
      "inst.zip" (by decide)⟩

/-- C7 counterexample: in envSelfFetch a process AppInstaller.exe is
running and the target application is AppInstaller itself; the
self-update phase (which runs before the running-process check)
fetches and extracts the installer into local appdata's AppInstaller
directory — the target's install directory — and the run then reports
AlreadyRunning.  The install directory is therefore not untouched. -/
theorem c7_already_running_counterexample :
    Act.reportAlreadyRunning ∈ run_installation envSelfFetch "AppInstaller" ∧
    Act.createDirTree "AppInstaller" ∈
      run_installation envSelfFetch "AppInstaller" ∧
    Act.extractInto "AppInstaller" ∈
      run_installation envSelfFetch "AppInstaller" := by
  decide

/-- C7 (amended): when a process named app.exe is running, the run is
exactly the self-update phase followed by the AlreadyRunning report:
the uninstall, staging-copy and extraction steps of the install phase
are not reached, and — provided the target is not AppInstaller itself,
whose directory the preceding self-update phase may touch — no action
of the run mutates the target's install directory. -/
theorem c7_already_running_skips_install (env : Env) (app : String)
    (hr : (app ++ ".exe") ∈ env.runningProcesses) :
    run_installation env app =
      update_installer env ++ [Act.reportAlreadyRunning] ∧
    (app ≠ "AppInstaller" →
      Act.deleteAppDir app ∉ run_installation env app ∧
      Act.copyZip app ∉ run_installation env app ∧
      Act.createDirTree app ∉ run_installation env app ∧
      Act.extractInto app ∉ run_installation env app) := by
  have heq : run_installation env app =
      update_installer env ++ [Act.reportAlreadyRunning] := by
    unfold run_installation
    rw [if_pos hr]
  refine ⟨heq, fun hne => ?_⟩
  rw [heq]
  have hupd := update_installer_acts env
  refine ⟨?_, ?_, ?_, ?_⟩ <;>
    · intro hmem
      rcases List.mem_append.mp hmem with hm | hm
      · rcases hupd _ hm with h | h | h | h | h | h <;> simp_all
      · simp at hm

/-- Witness for C7 (amended) at envRunning with target MyApp. -/
theorem c7_already_running_skips_install_witness :
    "MyApp" ++ ".exe" ∈ envRunning.runningProcesses ∧
    run_installation envRunning "MyApp" =
      update_installer envRunning ++ [Act.reportAlreadyRunning] ∧
    Act.deleteAppDir "MyApp" ∉ run_installation envRunning "MyApp" ∧
    Act.extractInto "MyApp" ∉ run_installation envRunning "MyApp" :=
  ⟨by decide,
    (c7_already_running_skips_install envRunning "MyApp" (by decide)).1,
    ((c7_already_running_skips_install envRunning "MyApp" (by decide)).2
      (by decide)).1,
    ((c7_already_running_skips_install envRunning "MyApp" (by decide)).2
      (by decide)).2.2.2⟩

end AppInstaller
